import Mathlib

/-!
Shallow embedding of the download/progress-tracking subsystem of the
yt3 video-download API server (Express + yt-dlp), together with proofs
about its behaviour.

The embedded code lives in:
* the server file (`app.post('/v1/download')`, its `ytdlp.stdout.on('data')`
  parser, the `ytdlp.on('close')` handler, the file-stream handlers, the
  progress endpoint and the WebSocket subscribe/broadcast logic), and
* `utils/downloadManager.js` (the concurrency/queue gate).

Modelling conventions:
* JS objects holding job state are records of `Option`-valued fields
  (a missing / `undefined` property is `none`); object spread is record
  update; `Map` is an insertion-ordered association list.
* JS numbers carrying progress percentages are modelled as `ℚ`, reading
  `parseFloat` of the matched `\d+\.?\d*` token as its exact decimal
  value (the properties proved here compare against 99 and 100 and are
  unaffected by binary-float rounding of such tokens).
* The regexes of the parser are hand-translated into character-list
  scanners, including the backtracking behaviour of the greedy
  quantifiers where it is observable; `\s`, `\w` and `trim` are modelled
  over their ASCII ranges (plus the line terminators excluded by `.`),
  which covers every character yt-dlp emits in these lines.
* I/O that does not touch the tracked state (console logging, HTTP
  response writing, the actual byte streaming) is not modelled; the
  filesystem side effects `fs.rm` / `setTimeout`-eviction are modelled
  as explicit effect values interpreted by a small timed semantics.
-/

namespace YtApi

/-! ## Character classes (JS regex, ASCII range) -/

/-- JS `\s` on the ASCII range: space, tab, LF, CR, VT, FF. -/
def isWsChar (c : Char) : Bool :=
  c == ' ' || c == '\t' || c == '\n' || c == '\r' || c == '\x0b' || c == '\x0c'

/-- JS `\w`: `[A-Za-z0-9_]`. -/
def isWordChar (c : Char) : Bool :=
  c.isAlphanum || c == '_'

/-- JS character class `[\d.]`. -/
def isDotDigit (c : Char) : Bool :=
  c.isDigit || c == '.'

/-- JS character class `[\d:]`. -/
def isColonDigit (c : Char) : Bool :=
  c.isDigit || c == ':'

/-- JS `.` without the `s` flag: anything but a line terminator. -/
def isDotClass (c : Char) : Bool :=
  !(c == '\n' || c == '\r' || c == '\u2028' || c == '\u2029')

/-! ## Matching machinery -/

/-- Strip a literal prefix, returning the remainder on success. -/
def stripLit : List Char → List Char → Option (List Char)
  | [], cs => some cs
  | _ :: _, [] => none
  | l :: ls, c :: cs => if c = l then stripLit ls cs else none

/-- Leftmost match: try the local matcher at every start position, in
order, as `String.prototype.match` does for an unanchored regex. -/
def scanFirst (f : List Char → Option (List Char)) : List Char → Option (List Char)
  | [] => f []
  | c :: cs =>
    match f (c :: cs) with
    | some r => some r
    | none => scanFirst f cs

/-- Index of the last decimal digit of the list, if any. -/
def lastDigitIdx (l : List Char) : Option Nat :=
  (l.foldl (fun (acc : Nat × Option Nat) c =>
    (acc.1 + 1, if c.isDigit then some acc.1 else acc.2)) (0, none)).2

/-- Index of the last occurrence of `ch`, if any. -/
def lastIdxOf (ch : Char) (l : List Char) : Option Nat :=
  (l.foldl (fun (acc : Nat × Option Nat) c =>
    (acc.1 + 1, if c = ch then some acc.1 else acc.2)) (0, none)).2

/-! ## The five line patterns of the stdout parser

Source regexes:
  downloadMatch : /\[download\]\s+(\d+\.?\d*)%/
  sizeMatch     : /\[download\]\s+[\d.]+%\s+of\s+~?\s*([\d.]+\w+)/
  etaMatch      : /ETA\s+([\d:]+)/
  destMatch     : /\[download\] Destination: (.+)/
  mergerMatch   : /\[Merger\] Merging formats into "(.+)"/
-/

/-- `\[download\]\s+(\d+\.?\d*)%` at one start position.  Greedy `\d+`,
`\.?`, `\d*` followed by the literal `%`: since `%` is neither a digit
nor a dot, the only successful factorisation consumes the maximal digit
run, an optional dot, and a further maximal digit run. -/
def downloadAt (cs : List Char) : Option (List Char) := do
  let r0 ← stripLit "[download]".toList cs
  let (ws, r1) := r0.span isWsChar
  if ws.isEmpty then none else
  let (d1, r2) := r1.span Char.isDigit
  if d1.isEmpty then none else
  match r2 with
  | '%' :: _ => some d1
  | '.' :: r3 =>
    let (d2, r4) := r3.span Char.isDigit
    (match r4 with
     | '%' :: _ => some (d1 ++ '.' :: d2)
     | _ => none)
  | _ => none

/-- Capture of `([\d.]+\w+)` given the maximal `[\d.]` run `r` and the
maximal `\w` run `w` that follows it.  If `w` is empty the regex engine
backtracks over the greedy `[\d.]+`: the longest prefix that still
leaves at least one word character is cut at the last digit of `r`
(characters of `r` after it are dots, which are not word characters),
and `[\d.]+` itself must keep at least one character. -/
def sizeCapture (r w : List Char) : Option (List Char) :=
  if !w.isEmpty then some (r ++ w)
  else
    match lastDigitIdx r with
    | some k => if 1 ≤ k then some (r.take (k + 1)) else none
    | none => none

/-- `\[download\]\s+[\d.]+%\s+of\s+~?\s*([\d.]+\w+)` at one position. -/
def sizeAt (cs : List Char) : Option (List Char) := do
  let r0 ← stripLit "[download]".toList cs
  let (ws1, r1) := r0.span isWsChar
  if ws1.isEmpty then none else
  let (pd, r2) := r1.span isDotDigit
  if pd.isEmpty then none else
  match r2 with
  | '%' :: r3 =>
    let (ws2, r4) := r3.span isWsChar
    if ws2.isEmpty then none else do
    let r5 ← stripLit "of".toList r4
    let (ws3, r6) := r5.span isWsChar
    if ws3.isEmpty then none else
    let r7 := match r6 with
      | '~' :: t => (t.span isWsChar).2
      | _ => r6
    let (rr, r8) := r7.span isDotDigit
    if rr.isEmpty then none else
    let (w, _) := r8.span isWordChar
    sizeCapture rr w
  | _ => none

/-- `ETA\s+([\d:]+)` at one position. -/
def etaAt (cs : List Char) : Option (List Char) := do
  let r0 ← stripLit "ETA".toList cs
  let (ws, r1) := r0.span isWsChar
  if ws.isEmpty then none else
  let (et, _) := r1.span isColonDigit
  if et.isEmpty then none else some et

/-- `\[download\] Destination: (.+)` at one position: the greedy `.+`
captures the rest of the line (up to a line terminator or the end). -/
def destAt (cs : List Char) : Option (List Char) := do
  let r0 ← stripLit "[download] Destination: ".toList cs
  let (cap, _) := r0.span isDotClass
  if cap.isEmpty then none else some cap

/-- `\[Merger\] Merging formats into "(.+)"` at one position: greedy
`.+` backtracks to the last `"` on the line; the capture needs at least
one character. -/
def mergerAt (cs : List Char) : Option (List Char) := do
  let r0 ← stripLit "[Merger] Merging formats into \"".toList cs
  let (line, _) := r0.span isDotClass
  match lastIdxOf '"' line with
  | some k => if 1 ≤ k then some (line.take k) else none
  | none => none

def matchDownload (s : String) : Option String :=
  (scanFirst downloadAt s.toList).map List.asString

def matchSize (s : String) : Option String :=
  (scanFirst sizeAt s.toList).map List.asString

def matchEta (s : String) : Option String :=
  (scanFirst etaAt s.toList).map List.asString

def matchDest (s : String) : Option String :=
  (scanFirst destAt s.toList).map List.asString

def matchMerger (s : String) : Option String :=
  (scanFirst mergerAt s.toList).map List.asString

/-! ## Number and string helpers -/

/-- `String.prototype.trim` (ASCII whitespace range). -/
def jsTrim (s : String) : String :=
  (((s.toList.dropWhile isWsChar).reverse.dropWhile isWsChar).reverse).asString

def natOfDigits (l : List Char) : Nat :=
  l.foldl (fun a c => 10 * a + (c.toNat - 48)) 0

/-- `parseFloat` of a `\d+\.?\d*` token, as its exact decimal value
`ip + fp / 10 ^ |fp|`. -/
def parseDec (s : String) : ℚ :=
  let l := s.toList
  let (ip, rest) := l.span Char.isDigit
  let fp := match rest with
    | '.' :: t => t.takeWhile Char.isDigit
    | _ => []
  mkRat (natOfDigits ip * 10 ^ fp.length + natOfDigits fp) (10 ^ fp.length)

/-- `Math.min` on two numbers. -/
def jsMin (a b : ℚ) : ℚ := if a ≤ b then a else b

/-- `Number.prototype.toFixed(1)` for the nonnegative decimal values
produced by the percentage matcher: round `q` half-up to tenths and
print with one fractional digit. -/
def toFixed1 (q : ℚ) : String :=
  let m : Nat := (20 * q.num.toNat + q.den) / (2 * q.den)
  Nat.repr (m / 10) ++ "." ++ Nat.repr (m % 10)

/-! ## Job state and the in-memory registry (`activeJobs : Map`) -/

inductive Status where
  | initializing
  | downloading
  | streaming
  | completed
  | failed
deriving DecidableEq, Repr

/-- A job-state object as stored in `activeJobs`.  Every field is
optional: a JS object built by spreading may lack any of them (the
property is then `undefined`). -/
structure JobObj where
  jobId : Option String := none
  status : Option Status := none
  progress : Option ℚ := none
  stage : Option String := none
  url : Option String := none
  format_id : Option String := none
  totalSize : Option String := none
  eta : Option String := none
  error : Option String := none
deriving DecidableEq, Repr

/-- `activeJobs` is a JS `Map`: insertion-ordered keyed entries. -/
abbrev Reg := List (String × JobObj)

def regGet (r : Reg) (k : String) : Option JobObj :=
  (r.find? (fun p => p.1 == k)).map (fun p => p.2)

/-- `Map.set`: if the key exists, replace its value in place (keeping
insertion order), else append a new entry. -/
def regSet : Reg → String → JobObj → Reg
  | [], k, v => [(k, v)]
  | p :: rest, k, v => if p.1 == k then (k, v) :: rest else p :: regSet rest k v

/-- `Map.delete`. -/
def regDelete (r : Reg) (k : String) : Reg :=
  r.filter (fun p => p.1 != k)

/-- The object installed at job creation (`activeJobs.set(jobId, {...})`
right after the request is accepted). -/
def initialJob (jobId url : String) (format_id : Option String) : JobObj :=
  { jobId := some jobId
    status := some Status.initializing
    progress := some 0
    stage := some "Starting download..."
    url := some url
    format_id := format_id }

/-! ## Orchestrator event handlers

Each handler is the pure state transformation performed by the
corresponding callback in `app.post('/v1/download')`, paired with the
filesystem/timer effects it requests.  The spread `{...activeJobs.get(jobId), ...}`
is modelled by merging into `(regGet reg jobId).getD {}`: spreading
`undefined` contributes no properties. -/

inductive Effect where
  | rmTempDir
  | scheduleEvict (delayMs : Nat)
deriving DecidableEq, Repr

/-- The `ytdlp.stdout.on('data')` callback.  State threaded through is
the registry together with the closure variable `downloadedFile`. -/
def onStdoutData (jobId : String) (st : Reg × Option String) (output : String) :
    Reg × Option String :=
  let reg := st.1
  let downloadedFile := st.2
  let downloadMatch := matchDownload output
  let sizeMatch := matchSize output
  let etaMatch := matchEta output
  let destMatch := matchDest output
  let mergerMatch := matchMerger output
  let downloadedFile1 := match destMatch with
    | some d => some (jsTrim d)
    | none => downloadedFile
  let downloadedFile2 := match mergerMatch with
    | some m => some (jsTrim m)
    | none => downloadedFile1
  match downloadMatch with
  | none => (reg, downloadedFile2)
  | some pstr =>
    let progress := parseDec pstr
    let base := (regGet reg jobId).getD {}
    let upd0 := { base with
      status := some Status.downloading
      progress := some (jsMin progress 99)
      stage := some ("Downloading: " ++ toFixed1 progress ++ "%") }
    let upd1 := match sizeMatch with
      | some sz => { upd0 with totalSize := some sz }
      | none => upd0
    let upd2 := match etaMatch with
      | some e => { upd1 with eta := some e }
      | none => upd1
    (regSet reg jobId upd2, downloadedFile2)

/-- Success entry of the `ytdlp.on('close')` callback (exit code 0 and
a truthy `downloadedFile`): mark the job `streaming` before piping the
file to the response. -/
def onCloseSuccess (jobId : String) (reg : Reg) : Reg :=
  regSet reg jobId
    { (regGet reg jobId).getD {} with
      status := some Status.streaming
      progress := some 100
      stage := some "Sending to browser..." }

/-- `fileStream.on('end')`: mark completed, remove the temp directory,
and schedule registry eviction after five minutes. -/
def onStreamEnd (jobId : String) (reg : Reg) : Reg × List Effect :=
  (regSet reg jobId
    { (regGet reg jobId).getD {} with
      status := some Status.completed
      progress := some 100
      stage := some "Download complete!" },
   [Effect.rmTempDir, Effect.scheduleEvict (5 * 60 * 1000)])

/-- `fileStream.on('error')`: the callback only logs and removes the
temp directory — it does not touch the registry. -/
def onStreamError (_jobId : String) (reg : Reg) : Reg × List Effect :=
  (reg, [Effect.rmTempDir])

/-- Inner `catch` of the success branch (e.g. `fs.promises.stat`
rejects): responds 500 if possible and removes the temp directory; the
registry is not touched. -/
def onSendError (_jobId : String) (reg : Reg) : Reg × List Effect :=
  (reg, [Effect.rmTempDir])

/-- Template-literal rendering of the exit code (`null` when the
process was killed by a signal). -/
def codeStr : Option Int → String
  | none => "null"
  | some n => toString n

/-- Failure branch of `ytdlp.on('close')` (non-zero exit, or no file
was located): mark failed and remove the temp directory.  No eviction
is scheduled on this path. -/
def onCloseFailure (jobId : String) (code : Option Int) (reg : Reg) : Reg × List Effect :=
  (regSet reg jobId
    { (regGet reg jobId).getD {} with
      status := some Status.failed
      stage := some "Download failed"
      error := some ("yt-dlp exited with code " ++ codeStr code) },
   [Effect.rmTempDir])

/-- Outer `catch` of the endpoint body (mkdir/spawn failure): mark
failed and remove the temp directory.  No eviction is scheduled. -/
def onCatch (jobId : String) (msg : String) (reg : Reg) : Reg × List Effect :=
  (regSet reg jobId
    { (regGet reg jobId).getD {} with
      status := some Status.failed
      stage := some "Failed"
      error := some msg },
   [Effect.rmTempDir])

/-- JS truthiness of the `downloadedFile` variable (`null` and the
empty string are falsy). -/
def dfTruthy : Option String → Bool
  | none => false
  | some s => !s.isEmpty

/-- Dispatch of `ytdlp.on('close')`: `if (code === 0 && downloadedFile)`. -/
def onClose (jobId : String) (code : Option Int) (located : Option String) (reg : Reg) :
    Reg × List Effect :=
  if code = some 0 ∧ dfTruthy located = true then (onCloseSuccess jobId reg, [])
  else onCloseFailure jobId code reg

/-- `GET /v1/download/progress/:jobId`: 404 on a missing entry, else
the stored snapshot. -/
inductive ProgressResp where
  | notFound
  | ok (j : JobObj)
deriving DecidableEq, Repr

def getProgress (reg : Reg) (jobId : String) : ProgressResp :=
  match regGet reg jobId with
  | none => ProgressResp.notFound
  | some j => ProgressResp.ok j

/-! ## Per-job lifecycle as a little event machine

The phases reflect the event structure of the source: the child
process's stdout emits lines only until its single `close` event; the
response file stream exists only after a successful close and fires
`end` or `error` once; the endpoint's outer `catch` can only run before
the handlers are installed (modelled as: while still `running`). -/

inductive Phase where
  | running
  | sending
  | done
deriving DecidableEq, Repr

structure Sys where
  reg : Reg
  located : Option String
  phase : Phase
deriving DecidableEq, Repr

inductive LEv where
  | out (line : String)
  | procClose (code : Option Int)
  | streamEnd
  | streamError
  | sendError
  | initError (msg : String)

def lstep (jobId : String) (s : Sys) (e : LEv) : Sys :=
  match e with
  | LEv.out line =>
    match s.phase with
    | Phase.running =>
      let p := onStdoutData jobId (s.reg, s.located) line
      { reg := p.1, located := p.2, phase := Phase.running }
    | _ => s
  | LEv.procClose code =>
    match s.phase with
    | Phase.running =>
      if code = some 0 ∧ dfTruthy s.located = true then
        { s with reg := onCloseSuccess jobId s.reg, phase := Phase.sending }
      else
        { s with reg := (onCloseFailure jobId code s.reg).1, phase := Phase.done }
    | _ => s
  | LEv.streamEnd =>
    match s.phase with
    | Phase.sending => { s with reg := (onStreamEnd jobId s.reg).1, phase := Phase.done }
    | _ => s
  | LEv.streamError =>
    match s.phase with
    | Phase.sending => { s with reg := (onStreamError jobId s.reg).1, phase := Phase.done }
    | _ => s
  | LEv.sendError =>
    match s.phase with
    | Phase.sending => { s with reg := (onSendError jobId s.reg).1, phase := Phase.done }
    | _ => s
  | LEv.initError msg =>
    match s.phase with
    | Phase.running => { s with reg := (onCatch jobId msg s.reg).1, phase := Phase.done }
    | _ => s

def runL (jobId : String) (s : Sys) (evs : List LEv) : Sys :=
  evs.foldl (lstep jobId) s

/-- State right after the endpoint accepted the request and installed
the `initializing` snapshot in the registry. -/
def initSys (jobId url : String) (format_id : Option String) : Sys :=
  { reg := regSet [] jobId (initialJob jobId url format_id)
    located := none
    phase := Phase.running }

/-! ## Timers: `setTimeout(() => activeJobs.delete(jobId), 5*60*1000)` -/

structure TSys where
  reg : Reg
  timers : List (Nat × String)
deriving DecidableEq, Repr

/-- Interpret a handler's effect list at wall-clock time `now`:
`scheduleEvict d` arms a deletion of `jobId` at `now + d`. -/
def applyEffects (now : Nat) (jobId : String) (effs : List Effect) (t : TSys) : TSys :=
  effs.foldl (fun acc e =>
    match e with
    | Effect.scheduleEvict d => { acc with timers := acc.timers ++ [(now + d, jobId)] }
    | Effect.rmTempDir => acc) t

/-- Advance the injected clock to `now`: every armed timer whose time
has passed fires and deletes its registry entry. -/
def fireDue (now : Nat) (t : TSys) : TSys :=
  { reg := (t.timers.filter (fun p => decide (p.1 ≤ now))).foldl
      (fun r p => regDelete r p.2) t.reg
    timers := t.timers.filter (fun p => !(decide (p.1 ≤ now))) }

/-! ## Temp-directory cleanup: `fs.rm(tempDir, { recursive: true, force: true })`

The filesystem is abstracted to the set of existing job temp
directories; `recursive` removal of one directory is erasure, and
`force` suppresses the error on a missing path. -/

abbrev FileSys := List String

def rmRecursiveForce (fsys : FileSys) (d : String) : FileSys :=
  fsys.filter (fun x => x != d)

/-- `fs.rm` with/without `force`: without it a missing path is an
`ENOENT` error, with it the call always succeeds. -/
def rmResult (force : Bool) (fsys : FileSys) (d : String) : Except String FileSys :=
  if force then Except.ok (rmRecursiveForce fsys d)
  else if fsys.contains d then Except.ok (rmRecursiveForce fsys d)
  else Except.error "ENOENT"

/-! ## Request validation and spawn of `app.post('/v1/download')` -/

/-- JS falsiness of `req.body.url` (`undefined` or the empty string;
any other string is truthy). -/
def urlFalsy : Option String → Bool
  | none => true
  | some s => s.isEmpty

/-- The yt-dlp format selector (with and without a requested format). -/
def formatSelector : Option String → String
  | some f =>
    f ++ "+bestaudio/bestvideo[protocol!*=m3u8][protocol!=http_dash_segments]+bestaudio/best[protocol!*=m3u8][protocol!=http_dash_segments]"
  | none =>
    "bestvideo[protocol!*=m3u8][protocol!=http_dash_segments][ext=mp4]+bestaudio[ext=m4a]/best[protocol!*=m3u8][protocol!=http_dash_segments]"

def userAgent : String :=
  "Mozilla/5.0 (iPhone; CPU iPhone OS 17_0 like Mac OS X) AppleWebKit/605.1.15"

/-- The argument vector handed to `spawn(YT_DLP_PATH, ytdlpArgs)`. -/
def ytdlpArgs (cookiesExist : Bool) (cookiesPath fsel outputTemplate url : String) :
    List String :=
  let common := ["-f", fsel, "--merge-output-format", "mp4",
    "--postprocessor-args", "Merger+ffmpeg:-c:v copy -c:a aac -b:a 40k",
    "--extractor-args", "youtube:player_client=ios,web",
    "--user-agent", userAgent,
    "--newline", "--progress", "-o", outputTemplate, url]
  if cookiesExist then "--cookies" :: cookiesPath :: common else common

/-- Synchronous outcome of the endpoint prelude: either the 400
rejection (issued before a job id, registry entry, temp dir or process
exists) or acceptance, carrying the registry snapshot installed for the
new job and the spawned argument vector. -/
inductive PostResult where
  | badRequest (msg : String)
  | accepted (job : JobObj) (spawnArgs : List String)
deriving DecidableEq, Repr

def handleDownloadPost (url format_id : Option String) (jobId : String)
    (cookiesExist : Bool) (cookiesPath tempDir : String) : PostResult :=
  if urlFalsy url then PostResult.badRequest "Missing \"url\" in request body"
  else
    let u := url.getD ""
    PostResult.accepted (initialJob jobId u format_id)
      (ytdlpArgs cookiesExist cookiesPath (formatSelector format_id)
        (tempDir ++ "/%(title)s.%(ext)s") u)

/-! ## The concurrency/queue gate (`utils/downloadManager.js`)

`activeDownloads` is a `Map` keyed by job id (represented by its key
list); `queue` is the FIFO array.  `queuedLog`/`startedLog` record the
job ids of the emitted `queued`/`started` events, in order.  The
synchronous prefix of `processQueue` (guard, `shift`, `set`, emit) is
one atomic step; it is triggered by `addToQueue` and again each time a
running job settles. -/

structure DM where
  maxConcurrentDownloads : Nat
  queue : List String
  active : List String
  startedLog : List String
  queuedLog : List String
deriving DecidableEq, Repr

/-- `Map.set` keyed by job id. -/
def activeInsert (l : List String) (j : String) : List String :=
  if l.contains j then l else l ++ [j]

/-- Synchronous prefix of `processQueue`: return if the concurrency
limit is reached, else shift the queue head (if any) into the active
map and emit `started`. -/
def processQueue (d : DM) : DM :=
  if d.maxConcurrentDownloads ≤ d.active.length then d
  else
    match d.queue with
    | [] => d
    | j :: rest =>
      { d with queue := rest, active := activeInsert d.active j,
               startedLog := d.startedLog ++ [j] }

/-- `addToQueue`: push, emit `queued`, then `processQueue`. -/
def addToQueue (d : DM) (j : String) : DM :=
  processQueue { d with queue := d.queue ++ [j], queuedLog := d.queuedLog ++ [j] }

/-- A running job settles (`job.execute()` resolved or rejected): its
entry is deleted and `processQueue` runs again. -/
def finishJob (d : DM) (j : String) : DM :=
  processQueue { d with active := d.active.filter (fun x => x != j) }

inductive DMEv where
  | enq (j : String)
  | fin (j : String)

def dmStep (d : DM) (e : DMEv) : DM :=
  match e with
  | DMEv.enq j => addToQueue d j
  | DMEv.fin j => finishJob d j

def dmRun (d : DM) (evs : List DMEv) : DM :=
  evs.foldl dmStep d

def dmInit (m : Nat) : DM :=
  { maxConcurrentDownloads := m, queue := [], active := [], startedLog := [], queuedLog := [] }

/-! ## WebSocket subscriptions and broadcast -/

/-- A WebSocket connection: its ready state and the ad hoc `ws.jobId`
property (absent until the first subscribe message). -/
structure WsConn where
  readyStateOpen : Bool
  jobId : Option String := none
deriving DecidableEq, Repr

/-- A parsed client message (`JSON.parse` result with the fields the
handler reads; a parse failure is caught and changes nothing, i.e. no
step). -/
structure WsMsg where
  type : Option String := none
  jobId : Option String := none
deriving DecidableEq, Repr

def truthyStr : Option String → Bool
  | none => false
  | some s => !s.isEmpty

/-- The `ws.on('message')` handler: `if (data.type === 'subscribe' &&
data.jobId) ws.jobId = data.jobId`. -/
def onWsMessage (ws : WsConn) (m : WsMsg) : WsConn :=
  if m.type = some "subscribe" ∧ truthyStr m.jobId = true then { ws with jobId := m.jobId }
  else ws

/-- `broadcastProgress`: the clients that are sent the update for
`jobId` are exactly the open connections whose `ws.jobId` strictly
equals it. -/
def broadcastRecipients (clients : List WsConn) (jobId : String) : List WsConn :=
  clients.filter (fun c => c.readyStateOpen && c.jobId == some jobId)

/-! ## Verification scaffolding: invariants and concrete scenarios -/

/-- Every stored job object carries a status (all writers set one). -/
def statusPresent (j : JobObj) : Prop :=
  j.status = some Status.initializing ∨ j.status = some Status.downloading ∨
  j.status = some Status.streaming ∨ j.status = some Status.completed ∨
  j.status = some Status.failed

/-- Per-entry invariant: progress is 0 while initializing, at most 99
while downloading or after a failure, and exactly 100 in the streaming
and completed states. -/
def jobInv (j : JobObj) : Prop :=
  statusPresent j ∧
  (j.status = some Status.initializing → j.progress = some 0) ∧
  (j.status = some Status.downloading → ∃ p, j.progress = some p ∧ p ≤ 99) ∧
  ((j.status = some Status.streaming ∨ j.status = some Status.completed) →
    j.progress = some 100) ∧
  (j.status = some Status.failed →
    j.progress = none ∨ ∃ p, j.progress = some p ∧ p ≤ 99)

/-- System invariant for one job's lifecycle: its registry entry
satisfies `jobInv`, and while the process is still running the status
is `initializing` or `downloading`. -/
def sysInv (jobId : String) (s : Sys) : Prop :=
  ∀ j, regGet s.reg jobId = some j →
    jobInv j ∧
    (s.phase = Phase.running →
      j.status = some Status.initializing ∨ j.status = some Status.downloading)

/-- Gate invariant: the configured limit is fixed, the active map never
exceeds it, and the `queued` event log is the `started` event log
followed by the jobs still waiting (hence starts are FIFO). -/
def DMInv (m : Nat) (d : DM) : Prop :=
  d.maxConcurrentDownloads = m ∧
  d.active.length ≤ m ∧
  d.queuedLog = d.startedLog ++ d.queue

/-- The `downloadedFile` variable after one stdout chunk: a Merger
announcement wins over a Destination announcement, which wins over the
previous value; percentage tokens do not touch it. -/
def locatedAfter (df : Option String) (output : String) : Option String :=
  match matchMerger output with
  | some m => some (jsTrim m)
  | none =>
    match matchDest output with
    | some d => some (jsTrim d)
    | none => df

/-- The entry written for a percentage line, as a function of the
previous entry and the optional size/ETA captures of the same line. -/
def dlUpdate (base : JobObj) (pstr : String) (szo eto : Option String) : JobObj :=
  let upd0 := { base with
    status := some Status.downloading
    progress := some (jsMin (parseDec pstr) 99)
    stage := some ("Downloading: " ++ toFixed1 (parseDec pstr) ++ "%") }
  let upd1 := match szo with
    | some sz => { upd0 with totalSize := some sz }
    | none => upd0
  match eto with
  | some e => { upd1 with eta := some e }
  | none => upd1

/- Scenario constants. -/

def c2JobId : String := "job-1"

def c2Url : String := "https://example.com/v"

def c2Line1 : String := "[download] 10.0% of ~50.00MiB ETA 00:30"

def c2Line2 : String := "[download] 100% of 50.00MiB"

def c2Reg0 : Reg := (initSys c2JobId c2Url none).reg

def c2St1 : Reg × Option String := onStdoutData c2JobId (c2Reg0, none) c2Line1

def c2St2 : Reg × Option String := onStdoutData c2JobId c2St1 c2Line2

def c2Reg3 : Reg := (onClose c2JobId (some 0) (some "video.mp4") c2St2.1).1

def c2Reg4 : Reg := (onStreamEnd c2JobId c2Reg3).1

def c1Reg : Reg := [("jc", initialJob "jc" "u" none)]

def c1St1 : Reg × Option String := onStdoutData "jc" (c1Reg, none) "[download] 50.0%"

def c1St2 : Reg × Option String := onStdoutData "jc" c1St1 "[download] 10.0%"

def c1WitnessJob : JobObj :=
  { jobId := some "jw", status := some Status.downloading, progress := some 42,
    stage := some "Downloading: 42.0%", url := some "u" }

def c3Reg : Reg := onCloseSuccess "j3" [("j3", initialJob "j3" "u" none)]

def c4Reg : Reg := [("j4", initialJob "j4" "u" none)]

def c6Reg : Reg := [("j6x", initialJob "j6x" "u" none)]

def malformedUrl : String := "ht!tp:/ not a url"

/-! ## Registry lemmas -/

theorem regGet_regSet_self (r : Reg) (k : String) (v : JobObj) :
    regGet (regSet r k v) k = some v := by
  induction r with
  | nil => simp [regSet, regGet, List.find?]
  | cons p rest ih =>
    by_cases h : p.1 == k
    · simp [regSet, h, regGet, List.find?]
    · simp only [regSet, h, Bool.false_eq_true, if_false]
      simpa [regGet, List.find?, h] using ih

theorem regGet_regDelete_self (r : Reg) (k : String) :
    regGet (regDelete r k) k = none := by
  induction r with
  | nil => simp [regDelete, regGet]
  | cons p rest ih =>
    unfold regDelete at ih ⊢
    by_cases h : p.1 == k
    · have h2 : (p.1 != k) = false := by simp [bne, h]
      simp only [List.filter_cons, h2, Bool.false_eq_true, if_false]
      exact ih
    · have h2 : (p.1 != k) = true := by simp [bne, h]
      simp only [List.filter_cons, h2, if_true]
      simp only [regGet, List.find?, h, Bool.false_eq_true] at ih ⊢
      exact ih

theorem jsMin_le_right (a b : ℚ) : jsMin a b ≤ b := by
  unfold jsMin
  split
  · assumption
  · exact le_refl b

/-! ## jobInv constructors -/

theorem jobInv_downloading (j : JobObj) (hst : j.status = some Status.downloading)
    (hpr : ∃ p, j.progress = some p ∧ p ≤ 99) : jobInv j := by
  refine ⟨Or.inr (Or.inl hst), ?_, fun _ => hpr, ?_, ?_⟩
  · intro hc; rw [hst] at hc; exact absurd hc (by simp)
  · rintro (hc | hc) <;> rw [hst] at hc <;> exact absurd hc (by simp)
  · intro hc; rw [hst] at hc; exact absurd hc (by simp)

theorem jobInv_initializing (j : JobObj) (hst : j.status = some Status.initializing)
    (hpr : j.progress = some 0) : jobInv j := by
  refine ⟨Or.inl hst, fun _ => hpr, ?_, ?_, ?_⟩
  · intro hc; rw [hst] at hc; exact absurd hc (by simp)
  · rintro (hc | hc) <;> rw [hst] at hc <;> exact absurd hc (by simp)
  · intro hc; rw [hst] at hc; exact absurd hc (by simp)

theorem jobInv_streaming (j : JobObj)
    (hst : j.status = some Status.streaming ∨ j.status = some Status.completed)
    (hpr : j.progress = some 100) : jobInv j := by
  refine ⟨?_, ?_, ?_, fun _ => hpr, ?_⟩
  · rcases hst with h | h
    · exact Or.inr (Or.inr (Or.inl h))
    · exact Or.inr (Or.inr (Or.inr (Or.inl h)))
  all_goals
    intro hc
    rcases hst with h | h <;> rw [h] at hc <;> exact absurd hc (by simp)

theorem jobInv_failed (j : JobObj) (hst : j.status = some Status.failed)
    (hpr : j.progress = none ∨ ∃ p, j.progress = some p ∧ p ≤ 99) : jobInv j := by
  refine ⟨Or.inr (Or.inr (Or.inr (Or.inr hst))), ?_, ?_, ?_, fun _ => hpr⟩
  · intro hc; rw [hst] at hc; exact absurd hc (by simp)
  · intro hc; rw [hst] at hc; exact absurd hc (by simp)
  · rintro (hc | hc) <;> rw [hst] at hc <;> exact absurd hc (by simp)

/-! ## Claim theorems -/

/-- Claim C2 (confirmed): feeding the stdout parser the line
`"[download] 10.0% of ~50.00MiB ETA 00:30"` and then
`"[download] 100% of 50.00MiB"`, followed by the close handler's
success branch (exit code 0 with a located output file, here
`video.mp4`) and the file stream's `end` event, drives the registry
entry through exactly
`initializing → downloading(10, "50.00MiB", "00:30") →
downloading(99) → streaming(100) → completed`. -/
theorem download_success_trace :
    regGet c2Reg0 c2JobId = some
      { jobId := some c2JobId, status := some Status.initializing, progress := some 0,
        stage := some "Starting download...", url := some c2Url } ∧
    regGet c2St1.1 c2JobId = some
      { jobId := some c2JobId, status := some Status.downloading, progress := some 10,
        stage := some "Downloading: 10.0%", url := some c2Url,
        totalSize := some "50.00MiB", eta := some "00:30" } ∧
    regGet c2St2.1 c2JobId = some
      { jobId := some c2JobId, status := some Status.downloading, progress := some 99,
        stage := some "Downloading: 100.0%", url := some c2Url,
        totalSize := some "50.00MiB", eta := some "00:30" } ∧
    regGet c2Reg3 c2JobId = some
      { jobId := some c2JobId, status := some Status.streaming, progress := some 100,
        stage := some "Sending to browser...", url := some c2Url,
        totalSize := some "50.00MiB", eta := some "00:30" } ∧
    regGet c2Reg4 c2JobId = some
      { jobId := some c2JobId, status := some Status.completed, progress := some 100,
        stage := some "Download complete!", url := some c2Url,
        totalSize := some "50.00MiB", eta := some "00:30" } := by
  decide

/-- Claim C1, counterexample: the parser never compares against the
previous progress value, so the percentage lines `50.0%` then `10.0%`
drive a `downloading` job's progress from 50 down to 10 — progress is
not non-decreasing. -/
theorem progress_can_regress_counterexample :
    ((regGet c1St1.1 "jc").bind JobObj.status = some Status.downloading) ∧
    ((regGet c1St1.1 "jc").bind JobObj.progress = some 50) ∧
    ((regGet c1St2.1 "jc").bind JobObj.status = some Status.downloading) ∧
    ((regGet c1St2.1 "jc").bind JobObj.progress = some 10) ∧
    (10 : ℚ) < 50 := by
  decide

/-- Claim C3, counterexample: after an I/O error on the outgoing file
stream the job is still `streaming`, not `failed` — the error callback
only removes the temp directory. -/
theorem stream_error_keeps_streaming_counterexample :
    ((regGet (onStreamError "j3" c3Reg).1 "j3").bind JobObj.status
      = some Status.streaming) ∧
    ¬ ((regGet (onStreamError "j3" c3Reg).1 "j3").bind JobObj.status
      = some Status.failed) ∧
    (onStreamError "j3" c3Reg).2 = [Effect.rmTempDir] := by
  decide

/-- Claim C3 (amended): on a transfer-time I/O error the job's
temporary files are removed, but the registry entry is left untouched —
the job stays in `streaming` and never transitions to `failed`. -/
theorem stream_error_no_failed_transition (jobId : String) (reg : Reg) :
    onStreamError jobId reg = (reg, [Effect.rmTempDir]) := rfl

/-- Claim C5, counterexample: applying the close-failure registry
update for an id absent from an empty registry is not a no-op — it
creates an entry for that id. -/
theorem update_unknown_id_counterexample :
    (onCloseFailure "j5x" (some 1) ([] : Reg)).1 ≠ ([] : Reg) ∧
    (regGet (onCloseFailure "j5x" (some 1) ([] : Reg)).1 "j5x").isSome = true := by
  decide

/-- Claim C5 (amended): a registry update for an unknown id inserts a
fresh entry holding only the update's own fields (the spread of the
missing base object contributes nothing — in particular no `jobId` or
`url`), rather than being a no-op. -/
theorem update_on_absent_id_creates_entry (reg : Reg) (jobId : String)
    (code : Option Int) (h : regGet reg jobId = none) :
    regGet (onCloseFailure jobId code reg).1 jobId = some
      { status := some Status.failed, stage := some "Download failed",
        error := some ("yt-dlp exited with code " ++ codeStr code) } := by
  simp [onCloseFailure, h, regGet_regSet_self]

/-- Witness for `update_on_absent_id_creates_entry` at the empty
registry. -/
theorem update_on_absent_id_witness :
    regGet (onCloseFailure "j5" (some 2) ([] : Reg)).1 "j5" = some
      { status := some Status.failed, stage := some "Download failed",
        error := some ("yt-dlp exited with code " ++ codeStr (some 2)) } :=
  update_on_absent_id_creates_entry [] "j5" (some 2) rfl

/-- Claim C6, counterexample: the line `"ETA 00:30"` carries an ETA
token (the ETA pattern matches) but no percentage, and the handler
leaves the registry — in particular the job's `eta` — unchanged,
because the size/ETA updates sit inside the percentage branch. -/
theorem eta_without_percent_counterexample :
    matchEta "ETA 00:30" = some "00:30" ∧
    (onStdoutData "j6x" (c6Reg, none) "ETA 00:30").1 = c6Reg ∧
    ((regGet (onStdoutData "j6x" (c6Reg, none) "ETA 00:30").1 "j6x").bind
      JobObj.eta) = none := by
  decide

/-- Claim C7, counterexample: the endpoint checks only for a falsy
`url`; a malformed non-empty URL is not rejected — the request is
accepted and yt-dlp is spawned on it. -/
theorem malformed_url_not_rejected_counterexample :
    urlFalsy (some malformedUrl) = false ∧
    handleDownloadPost (some malformedUrl) none "j7x" false "cookies.txt" "temp/j7x" =
      PostResult.accepted (initialJob "j7x" malformedUrl none)
        (ytdlpArgs false "cookies.txt" (formatSelector none)
          ("temp/j7x" ++ "/%(title)s.%(ext)s") malformedUrl) := by
  exact ⟨rfl, rfl⟩

/-- Claim C7 (amended): a request whose `url` is missing or empty is
rejected synchronously with the 400 response, before any job record,
temp directory or child process exists; no further validation of URL
shape is performed. -/
theorem missing_url_rejected (url format_id : Option String) (jobId : String)
    (ck : Bool) (cp td : String) (h : urlFalsy url = true) :
    handleDownloadPost url format_id jobId ck cp td =
      PostResult.badRequest "Missing \"url\" in request body" := by
  simp [handleDownloadPost, h]

/-- Witness for `missing_url_rejected` at an absent `url`. -/
theorem missing_url_rejected_witness :
    handleDownloadPost none none "j7" false "cookies.txt" "temp/j7" =
      PostResult.badRequest "Missing \"url\" in request body" :=
  missing_url_rejected none none "j7" false "cookies.txt" "temp/j7" rfl

/-- Claim C4, counterexample: a job that fails at time 0 is still in
the registry when the clock reaches ten minutes — more than five
minutes after its terminal transition — because the failure paths never
schedule an eviction timer. -/
theorem failed_job_never_evicted_counterexample :
    getProgress (fireDue (10 * 60 * 1000)
      (applyEffects 0 "j4" (onCloseFailure "j4" (some 1) c4Reg).2
        { reg := (onCloseFailure "j4" (some 1) c4Reg).1, timers := [] })).reg "j4"
      ≠ ProgressResp.notFound := by
  decide

/-- Claim C4 (amended): only the completed path arms the five-minute
eviction timer.  A job completing at time `t0` is gone from the
registry once the injected clock passes `t0 + 5 * 60 * 1000`; a job
that fails arms no timer, so at every later time its entry is still
present and its progress query still succeeds. -/
theorem eviction_only_for_completed (jobId : String) (reg : Reg) (t0 t : Nat)
    (code : Option Int) :
    (t0 + 5 * 60 * 1000 ≤ t →
      regGet (fireDue t (applyEffects t0 jobId (onStreamEnd jobId reg).2
        { reg := (onStreamEnd jobId reg).1, timers := [] })).reg jobId = none) ∧
    ((fireDue t (applyEffects t0 jobId (onCloseFailure jobId code reg).2
        { reg := (onCloseFailure jobId code reg).1, timers := [] })).reg
        = (onCloseFailure jobId code reg).1 ∧
      getProgress (fireDue t (applyEffects t0 jobId (onCloseFailure jobId code reg).2
        { reg := (onCloseFailure jobId code reg).1, timers := [] })).reg jobId
        ≠ ProgressResp.notFound) := by
  constructor
  · intro h
    have hd : decide (t0 + 5 * 60 * 1000 ≤ t) = true := decide_eq_true h
    simp only [onStreamEnd, applyEffects, fireDue, List.foldl_cons, List.foldl_nil,
      List.nil_append, List.filter_cons, List.filter_nil, hd, if_true]
    exact regGet_regDelete_self _ _
  · constructor
    · simp [onCloseFailure, applyEffects, fireDue]
    · simp [onCloseFailure, applyEffects, fireDue, getProgress, regGet_regSet_self]

/-- Witness for `eviction_only_for_completed`: a job completing at time
0 is evicted once the clock reaches the five-minute mark. -/
theorem eviction_only_for_completed_witness :
    regGet (fireDue 300000 (applyEffects 0 "jw4" (onStreamEnd "jw4" ([] : Reg)).2
      { reg := (onStreamEnd "jw4" ([] : Reg)).1, timers := [] })).reg "jw4" = none :=
  (eviction_only_for_completed "jw4" [] 0 300000 (some 1)).1 (by decide)

/-- Claim C6 (amended): per output line, the Destination/Merger
announcements update the located-file variable independently of
everything else; a line with no percentage leaves the registry
unchanged whatever other tokens it carries (so a lone ETA or size token
updates nothing, and unrecognised lines are ignored without error); a
line with a percentage writes the downloading update, in which the size
and ETA fields are refreshed exactly when their own patterns also
matched that line. -/
theorem parser_field_independence (jobId : String) (reg : Reg) (df : Option String)
    (output : String) :
    (matchDownload output = none → (onStdoutData jobId (reg, df) output).1 = reg) ∧
    ((onStdoutData jobId (reg, df) output).2 = locatedAfter df output) ∧
    (∀ pstr, matchDownload output = some pstr →
      regGet (onStdoutData jobId (reg, df) output).1 jobId =
        some (dlUpdate ((regGet reg jobId).getD {}) pstr (matchSize output)
          (matchEta output))) := by
  refine ⟨?_, ?_, ?_⟩
  · intro h
    simp [onStdoutData, h]
  · cases hm : matchMerger output <;> cases hd : matchDest output <;>
      cases hdl : matchDownload output <;>
      simp [onStdoutData, locatedAfter, hm, hd, hdl]
  · intro pstr h
    cases hs : matchSize output <;> cases he : matchEta output <;>
      simp [onStdoutData, dlUpdate, h, hs, he, regGet_regSet_self]

/-- Witness for `parser_field_independence`: the ETA-only line leaves a
concrete registry untouched. -/
theorem parser_field_independence_witness :
    (onStdoutData "j6" ([("j6", initialJob "j6" "u" none)], none) "ETA 00:30").1 =
      [("j6", initialJob "j6" "u" none)] :=
  (parser_field_independence "j6" [("j6", initialJob "j6" "u" none)] none
    "ETA 00:30").1 (by decide)

/-! ## C1 invariant machinery -/

theorem onStdoutData_reg_of_none (jobId : String) (reg : Reg) (df : Option String)
    (output : String) (h : matchDownload output = none) :
    (onStdoutData jobId (reg, df) output).1 = reg := by
  simp [onStdoutData, h]

theorem onStdoutData_reg_of_some (jobId : String) (reg : Reg) (df : Option String)
    (output : String) (pstr : String) (h : matchDownload output = some pstr) :
    (onStdoutData jobId (reg, df) output).1 =
      regSet reg jobId (dlUpdate ((regGet reg jobId).getD {}) pstr
        (matchSize output) (matchEta output)) := by
  cases hs : matchSize output <;> cases he : matchEta output <;>
    simp [onStdoutData, dlUpdate, h, hs, he]

theorem dlUpdate_status (b : JobObj) (p : String) (szo eto : Option String) :
    (dlUpdate b p szo eto).status = some Status.downloading := by
  cases szo <;> cases eto <;> rfl

theorem dlUpdate_progress (b : JobObj) (p : String) (szo eto : Option String) :
    (dlUpdate b p szo eto).progress = some (jsMin (parseDec p) 99) := by
  cases szo <;> cases eto <;> rfl

theorem lstep_sysInv (jobId : String) (s : Sys) (e : LEv) (h : sysInv jobId s) :
    sysInv jobId (lstep jobId s e) := by
  obtain ⟨reg, loc, ph⟩ := s
  cases e with
  | out line =>
    cases ph with
    | running =>
      simp only [lstep]
      intro j hj
      simp only at hj
      cases hdl : matchDownload line with
      | none =>
        rw [onStdoutData_reg_of_none jobId reg loc line hdl] at hj
        exact ⟨(h j hj).1, fun _ => (h j hj).2 rfl⟩
      | some pstr =>
        rw [onStdoutData_reg_of_some jobId reg loc line pstr hdl,
          regGet_regSet_self] at hj
        injection hj with hj2
        subst hj2
        refine ⟨jobInv_downloading _ (dlUpdate_status _ _ _ _)
          ⟨jsMin (parseDec pstr) 99, dlUpdate_progress _ _ _ _, jsMin_le_right _ _⟩,
          fun _ => Or.inr (dlUpdate_status _ _ _ _)⟩
    | sending => exact h
    | done => exact h
  | procClose code =>
    cases ph with
    | running =>
      simp only [lstep]
      by_cases hc : code = some 0 ∧ dfTruthy loc = true
      · rw [if_pos hc]
        intro j hj
        simp only [onCloseSuccess] at hj
        rw [regGet_regSet_self] at hj
        injection hj with hj2
        subst hj2
        exact ⟨jobInv_streaming _ (Or.inl rfl) rfl, fun hph => absurd hph (by simp)⟩
      · rw [if_neg hc]
        intro j hj
        simp only [onCloseFailure] at hj
        cases hbase : regGet reg jobId with
        | none =>
          rw [hbase] at hj
          rw [regGet_regSet_self] at hj
          injection hj with hj2
          subst hj2
          exact ⟨jobInv_failed _ rfl (Or.inl rfl), fun hph => absurd hph (by simp)⟩
        | some j0 =>
          rw [hbase] at hj
          rw [regGet_regSet_self] at hj
          injection hj with hj2
          subst hj2
          have hj0 := h j0 hbase
          have hpr : ∃ p, j0.progress = some p ∧ p ≤ 99 := by
            rcases hj0.2 rfl with h1 | h1
            · exact ⟨0, hj0.1.2.1 h1, by norm_num⟩
            · exact hj0.1.2.2.1 h1
          exact ⟨jobInv_failed _ rfl (Or.inr hpr), fun hph => absurd hph (by simp)⟩
    | sending => exact h
    | done => exact h
  | streamEnd =>
    cases ph with
    | sending =>
      simp only [lstep]
      intro j hj
      simp only [onStreamEnd] at hj
      rw [regGet_regSet_self] at hj
      injection hj with hj2
      subst hj2
      exact ⟨jobInv_streaming _ (Or.inr rfl) rfl, fun hph => absurd hph (by simp)⟩
    | running => exact h
    | done => exact h
  | streamError =>
    cases ph with
    | sending =>
      simp only [lstep]
      intro j hj
      simp only [onStreamError] at hj
      exact ⟨(h j hj).1, fun hph => absurd hph (by simp)⟩
    | running => exact h
    | done => exact h
  | sendError =>
    cases ph with
    | sending =>
      simp only [lstep]
      intro j hj
      simp only [onSendError] at hj
      exact ⟨(h j hj).1, fun hph => absurd hph (by simp)⟩
    | running => exact h
    | done => exact h
  | initError msg =>
    cases ph with
    | running =>
      simp only [lstep]
      intro j hj
      simp only [onCatch] at hj
      cases hbase : regGet reg jobId with
      | none =>
        rw [hbase] at hj
        rw [regGet_regSet_self] at hj
        injection hj with hj2
        subst hj2
        exact ⟨jobInv_failed _ rfl (Or.inl rfl), fun hph => absurd hph (by simp)⟩
      | some j0 =>
        rw [hbase] at hj
        rw [regGet_regSet_self] at hj
        injection hj with hj2
        subst hj2
        have hj0 := h j0 hbase
        have hpr : ∃ p, j0.progress = some p ∧ p ≤ 99 := by
          rcases hj0.2 rfl with h1 | h1
          · exact ⟨0, hj0.1.2.1 h1, by norm_num⟩
          · exact hj0.1.2.2.1 h1
        exact ⟨jobInv_failed _ rfl (Or.inr hpr), fun hph => absurd hph (by simp)⟩
    | sending => exact h
    | done => exact h

theorem initSys_sysInv (jobId url : String) (fmt : Option String) :
    sysInv jobId (initSys jobId url fmt) := by
  intro j hj
  simp only [initSys] at hj
  rw [regGet_regSet_self] at hj
  injection hj with hj2
  subst hj2
  exact ⟨jobInv_initializing _ rfl rfl, fun _ => Or.inl rfl⟩

theorem runL_sysInv (jobId : String) (evs : List LEv) (s : Sys) (h : sysInv jobId s) :
    sysInv jobId (runL jobId s evs) := by
  induction evs generalizing s with
  | nil => exact h
  | cons e t ih =>
    simp only [runL, List.foldl_cons]
    exact ih _ (lstep_sysInv jobId s e h)

/-- Claim C1 (amended): over any event sequence of a job's lifecycle —
stdout lines, process close, stream completion or error — the registry
entry's progress is at most 99 whenever its status is `downloading`,
and progress can equal 100 only in the `streaming` or `completed`
states; however, progress is not non-decreasing (see the
counterexample: a later smaller percentage lowers it). -/
theorem progress_clamped_and_100_only_when_streaming (jobId url : String)
    (fmt : Option String) (evs : List LEv) (j : JobObj)
    (h : regGet (runL jobId (initSys jobId url fmt) evs).reg jobId = some j) :
    (j.status = some Status.downloading → ∃ p, j.progress = some p ∧ p ≤ 99) ∧
    (∀ p, j.progress = some p → (100 : ℚ) ≤ p →
      j.status = some Status.streaming ∨ j.status = some Status.completed) := by
  have hinv := runL_sysInv jobId evs (initSys jobId url fmt)
    (initSys_sysInv jobId url fmt) j h
  obtain ⟨⟨hsp, hinit, hdl, hsc, hfl⟩, -⟩ := hinv
  refine ⟨hdl, ?_⟩
  intro p hp h100
  rcases hsp with h1 | h1 | h1 | h1 | h1
  · have h0 := hinit h1
    rw [hp] at h0
    injection h0 with h0
    subst h0
    exact absurd h100 (by norm_num)
  · obtain ⟨q, hq, hq99⟩ := hdl h1
    rw [hp] at hq
    injection hq with hq
    subst hq
    exact absurd h100 (by linarith)
  · exact Or.inl h1
  · exact Or.inr h1
  · rcases hfl h1 with h2 | ⟨q, hq, hq99⟩
    · rw [hp] at h2
      exact absurd h2 (by simp)
    · rw [hp] at hq
      injection hq with hq
      subst hq
      exact absurd h100 (by linarith)

/-- Witness for `progress_clamped_and_100_only_when_streaming`: after
the single line `"[download] 42%"` the concrete entry is `downloading`
with progress 42, which the theorem bounds by 99. -/
theorem progress_clamped_witness :
    ∃ p, c1WitnessJob.progress = some p ∧ p ≤ 99 :=
  (progress_clamped_and_100_only_when_streaming "jw" "u" none
    [LEv.out "[download] 42%"] c1WitnessJob (by decide)).1 (by decide)

/-! ## C8: the concurrency gate -/

theorem processQueue_DMInv (m : Nat) (d : DM) (h : DMInv m d) :
    DMInv m (processQueue d) := by
  obtain ⟨hm, hb, hl⟩ := h
  unfold processQueue
  split
  · exact ⟨hm, hb, hl⟩
  · rename_i hlt
    cases hq : d.queue with
    | nil => exact ⟨hm, hb, hl⟩
    | cons j rest =>
      refine ⟨hm, ?_, ?_⟩
      · show (activeInsert d.active j).length ≤ m
        unfold activeInsert
        split
        · exact hb
        · simp only [List.length_append, List.length_cons, List.length_nil]
          omega
      · show d.queuedLog = d.startedLog ++ [j] ++ rest
        rw [hl, hq]
        simp [List.append_assoc]

theorem addToQueue_DMInv (m : Nat) (d : DM) (j : String) (h : DMInv m d) :
    DMInv m (addToQueue d j) := by
  obtain ⟨hm, hb, hl⟩ := h
  apply processQueue_DMInv
  refine ⟨hm, hb, ?_⟩
  show d.queuedLog ++ [j] = d.startedLog ++ (d.queue ++ [j])
  rw [hl]
  simp [List.append_assoc]

theorem finishJob_DMInv (m : Nat) (d : DM) (j : String) (h : DMInv m d) :
    DMInv m (finishJob d j) := by
  obtain ⟨hm, hb, hl⟩ := h
  apply processQueue_DMInv
  refine ⟨hm, ?_, hl⟩
  show (d.active.filter (fun x => x != j)).length ≤ m
  exact le_trans (List.length_filter_le _ _) hb

theorem dmRun_DMInv (m : Nat) (evs : List DMEv) (d : DM) (h : DMInv m d) :
    DMInv m (dmRun d evs) := by
  induction evs generalizing d with
  | nil => exact h
  | cons e t ih =>
    simp only [dmRun, List.foldl_cons]
    cases e with
    | enq j => exact ih _ (addToQueue_DMInv m d j h)
    | fin j => exact ih _ (finishJob_DMInv m d j h)

theorem dmInit_DMInv (m : Nat) : DMInv m (dmInit m) :=
  ⟨rfl, Nat.zero_le m, rfl⟩

/-- Claim C8 (confirmed): under any interleaving of enqueue and
job-settled events, the number of active downloads never exceeds the
configured maximum, and the sequence of `started` jobs is always a
prefix of the sequence of `queued` jobs — starts happen in FIFO order
of enqueueing, a job starting only when the guard found a free slot. -/
theorem queue_gate_bound_and_fifo (m : Nat) (evs : List DMEv) :
    (dmRun (dmInit m) evs).active.length ≤ m ∧
    ∃ waiting, (dmRun (dmInit m) evs).queuedLog =
      (dmRun (dmInit m) evs).startedLog ++ waiting := by
  have h := dmRun_DMInv m evs (dmInit m) (dmInit_DMInv m)
  exact ⟨h.2.1, ⟨_, h.2.2⟩⟩

/-- Claim C9 (confirmed): every terminal path of the orchestrator —
stream end (success), close failure, outer catch, and also the two
non-transitioning error paths — requests removal of the job's temp
directory; the removal is idempotent, forced removal never errors
(including on an already-missing directory), and no temp directory
survives it. -/
theorem cleanup_terminal_and_idempotent (jobId msg : String) (code : Option Int)
    (reg : Reg) (fsys : FileSys) (d : String) :
    ((onStreamEnd jobId reg).2.contains Effect.rmTempDir = true) ∧
    ((onCloseFailure jobId code reg).2.contains Effect.rmTempDir = true) ∧
    ((onCatch jobId msg reg).2.contains Effect.rmTempDir = true) ∧
    ((onStreamError jobId reg).2.contains Effect.rmTempDir = true) ∧
    ((onSendError jobId reg).2.contains Effect.rmTempDir = true) ∧
    rmRecursiveForce (rmRecursiveForce fsys d) d = rmRecursiveForce fsys d ∧
    rmResult true fsys d = Except.ok (rmRecursiveForce fsys d) ∧
    rmResult true (rmRecursiveForce fsys d) d = Except.ok (rmRecursiveForce fsys d) ∧
    d ∉ rmRecursiveForce fsys d := by
  refine ⟨rfl, rfl, rfl, rfl, rfl, ?_, ?_, ?_, ?_⟩
  · simp [rmRecursiveForce, List.filter_filter]
  · simp [rmResult]
  · simp [rmResult, rmRecursiveForce, List.filter_filter]
  · simp [rmRecursiveForce, List.mem_filter]

/-- Claim C10 (confirmed): a connection holds exactly one subscription
(the single `ws.jobId` field); subscribing to job `b` while subscribed
to job `a` overwrites it, after which the connection is a broadcast
recipient for `b` (whenever it is among the open clients) and never a
recipient for `a`. -/
theorem subscription_replacement (c : WsConn) (a b : String) (cl : List WsConn)
    (_ha : c.jobId = some a) (hopen : c.readyStateOpen = true)
    (hb : truthyStr (some b) = true) (hab : a ≠ b) :
    (onWsMessage c { type := some "subscribe", jobId := some b }).jobId = some b ∧
    ((onWsMessage c { type := some "subscribe", jobId := some b }) ∈ cl →
      onWsMessage c { type := some "subscribe", jobId := some b }
        ∈ broadcastRecipients cl b) ∧
    onWsMessage c { type := some "subscribe", jobId := some b }
      ∉ broadcastRecipients cl a := by
  have hmsg : onWsMessage c { type := some "subscribe", jobId := some b } =
      { c with jobId := some b } := by
    unfold onWsMessage
    rw [if_pos ⟨rfl, hb⟩]
  rw [hmsg]
  refine ⟨rfl, ?_, ?_⟩
  · intro hmem
    unfold broadcastRecipients
    rw [List.mem_filter]
    refine ⟨hmem, ?_⟩
    simp [hopen]
  · unfold broadcastRecipients
    rw [List.mem_filter]
    rintro ⟨-, hpred⟩
    simp [hopen] at hpred
    exact hab hpred.symm

/-- Witness for `subscription_replacement`: a connection subscribed to
job `A` re-subscribes to job `B` and is a recipient for `B` only. -/
theorem subscription_replacement_witness :
    (onWsMessage ({ readyStateOpen := true, jobId := some "A" } : WsConn)
      { type := some "subscribe", jobId := some "B" }).jobId = some "B" ∧
    ((onWsMessage ({ readyStateOpen := true, jobId := some "A" } : WsConn)
      { type := some "subscribe", jobId := some "B" }) ∈
        ([{ readyStateOpen := true, jobId := some "B" }] : List WsConn) →
      onWsMessage ({ readyStateOpen := true, jobId := some "A" } : WsConn)
        { type := some "subscribe", jobId := some "B" } ∈
        broadcastRecipients
          ([{ readyStateOpen := true, jobId := some "B" }] : List WsConn) "B") ∧
    onWsMessage ({ readyStateOpen := true, jobId := some "A" } : WsConn)
      { type := some "subscribe", jobId := some "B" }
      ∉ broadcastRecipients
          ([{ readyStateOpen := true, jobId := some "B" }] : List WsConn) "A" :=
  subscription_replacement ({ readyStateOpen := true, jobId := some "A" } : WsConn)
    "A" "B" [{ readyStateOpen := true, jobId := some "B" }] rfl rfl (by decide)
    (by decide)

/-- Witness for `stream_error_no_failed_transition` at a concrete
registry. -/
theorem stream_error_no_failed_transition_witness :
    onStreamError "jw3" ([("jw3", initialJob "jw3" "u" none)] : Reg) =
      ([("jw3", initialJob "jw3" "u" none)], [Effect.rmTempDir]) :=
  stream_error_no_failed_transition "jw3" [("jw3", initialJob "jw3" "u" none)]

/-- Witness for `queue_gate_bound_and_fifo` at a concrete interleaving
with limit 2. -/
theorem queue_gate_bound_and_fifo_witness :
    (dmRun (dmInit 2) [DMEv.enq "a", DMEv.enq "b", DMEv.enq "c",
      DMEv.fin "a"]).active.length ≤ 2 ∧
    ∃ waiting, (dmRun (dmInit 2) [DMEv.enq "a", DMEv.enq "b", DMEv.enq "c",
        DMEv.fin "a"]).queuedLog =
      (dmRun (dmInit 2) [DMEv.enq "a", DMEv.enq "b", DMEv.enq "c",
        DMEv.fin "a"]).startedLog ++ waiting :=
  queue_gate_bound_and_fifo 2 [DMEv.enq "a", DMEv.enq "b", DMEv.enq "c", DMEv.fin "a"]

/-- Witness for `cleanup_terminal_and_idempotent` at a concrete job and
a filesystem holding exactly its temp directory. -/
theorem cleanup_terminal_and_idempotent_witness :
    ((onStreamEnd "jw9" ([] : Reg)).2.contains Effect.rmTempDir = true) ∧
    ((onCloseFailure "jw9" (some 1) ([] : Reg)).2.contains Effect.rmTempDir = true) ∧
    ((onCatch "jw9" "boom" ([] : Reg)).2.contains Effect.rmTempDir = true) ∧
    ((onStreamError "jw9" ([] : Reg)).2.contains Effect.rmTempDir = true) ∧
    ((onSendError "jw9" ([] : Reg)).2.contains Effect.rmTempDir = true) ∧
    rmRecursiveForce (rmRecursiveForce ["temp/jw9"] "temp/jw9") "temp/jw9" =
      rmRecursiveForce ["temp/jw9"] "temp/jw9" ∧
    rmResult true ["temp/jw9"] "temp/jw9" =
      Except.ok (rmRecursiveForce ["temp/jw9"] "temp/jw9") ∧
    rmResult true (rmRecursiveForce ["temp/jw9"] "temp/jw9") "temp/jw9" =
      Except.ok (rmRecursiveForce ["temp/jw9"] "temp/jw9") ∧
    "temp/jw9" ∉ rmRecursiveForce ["temp/jw9"] "temp/jw9" :=
  cleanup_terminal_and_idempotent "jw9" "boom" (some 1) [] ["temp/jw9"] "temp/jw9"

end YtApi
